import Mathlib

/-!
Verification of the Inventory Store data-access layer
(`src/database.py`, class `InventoryDatabase`) of the AssetManagement
repository, against its natural-language specification.

The store is shallowly embedded: the MongoDB collection of asset
documents is a `List Item` (insertion order = natural order, matching
the order `find` and `find_one` scan documents absent an explicit
sort), the wall clock consulted by `get_formatted_time` is an explicit
`DateTime` argument, and Python exceptions become an `Except` result
paired with the (unchanged) post-state.  Python `ValueError`s are
mapped onto the spec's error kinds: blank/missing input shape ->
`validation`, duplicate `asset_id` -> `conflict`, missing target ->
`notFound`.
-/

namespace Inventory

/-- Python `str.strip()`: remove leading and trailing whitespace. -/
def stripChars (l : List Char) : List Char :=
  ((l.dropWhile Char.isWhitespace).reverse.dropWhile Char.isWhitespace).reverse

/-- One character of a regex pattern in the literal-plus-wildcard
fragment: pattern character `'.'` matches any character, every other
pattern character matches case-insensitively (`$options: 'i'`).
`search_items` interpolates the raw search term into `$regex` patterns;
this models the fragment where the term holds only literal characters
and the `'.'` wildcard (quantifiers and other metacharacters are
outside the model, and the theorems below only ever instantiate the
term inside this fragment). -/
def charPat (p c : Char) : Bool :=
  p == '.' || p.toLower == c.toLower

/-- Does the pattern match a prefix of `s`?  This is MongoDB
`$regex: "^pat.*"` with the `i` option, for `pat` in the
literal-plus-wildcard fragment. -/
def startsPat : List Char → List Char → Bool
  | [], _ => true
  | _ :: _, [] => false
  | p :: ps, c :: cs => charPat p c && startsPat ps cs

/-- Does the pattern match anywhere inside `s`?  This is MongoDB
`$regex: ".*pat.*"` (unanchored search) with the `i` option. -/
def containsPat (pat : List Char) : List Char → Bool
  | [] => startsPat pat []
  | c :: cs => startsPat pat (c :: cs) || containsPat pat cs

/-- Bytewise (code-point) comparison of strings as lists of characters;
for the ASCII timestamp strings the store produces this is exactly the
ordering MongoDB uses to sort string-valued fields. -/
def strLe : List Char → List Char → Bool
  | [], _ => true
  | _ :: _, [] => false
  | c :: cs, d :: ds => c.toNat < d.toNat || (c == d && strLe cs ds)

/-- A point in time as read from the wall clock, already shifted to EST
(`get_formatted_time` applies a fixed -5h offset to UTC before
formatting; the shift is monotone, so the EST clock is taken as the
model's clock parameter). -/
structure DateTime where
  year : Nat
  month : Nat
  day : Nat
  hour : Nat
  minute : Nat
  second : Nat
deriving DecidableEq

/-- Zero-pad a numeral to two digits, as `strftime` does for `%d`,
`%m`, `%H`, `%M`, `%S`. -/
def pad2 (n : Nat) : String :=
  (if n < 10 then "0" else "") ++ Nat.repr n

/-- Zero-pad a numeral to four digits, as `strftime` does for `%Y`. -/
def pad4 (n : Nat) : String :=
  (if n < 10 then "000" else if n < 100 then "00" else if n < 1000 then "0" else "")
    ++ Nat.repr n

/-- Model of `get_formatted_time`: format the current EST time as
`"%d/%m/%Y %H:%M:%S"` — day first, then month, then year. -/
def get_formatted_time (t : DateTime) : String :=
  pad2 t.day ++ "/" ++ pad2 t.month ++ "/" ++ pad4 t.year ++ " "
    ++ pad2 t.hour ++ ":" ++ pad2 t.minute ++ ":" ++ pad2 t.second

/-- Chronological key of a date-time: later moments have strictly
larger keys (field widths are generous upper bounds). -/
def DateTime.key (t : DateTime) : Nat :=
  ((((t.year * 13 + t.month) * 32 + t.day) * 25 + t.hour) * 61 + t.minute) * 61 + t.second

/-- An asset record as `add_item` stores it: all thirteen scalar fields
are always written; `image` is absent unless attached. -/
structure Item where
  asset_id : String
  item_name : String
  description : String
  location : String
  department : String
  purchase_price : Rat
  condition : String
  model_number : String
  serial_number : String
  status : String
  quantity : Int
  notes : String
  last_updated : String
  image : Option (List Nat) := none
deriving DecidableEq

/-- The spec's error kinds, as surfaced by the store's `ValueError`s:
`validation` for bad input shape, `conflict` for a duplicate
`asset_id`, `notFound` for a missing target. -/
inductive StoreError where
  | validation (msg : String)
  | conflict (msg : String)
  | notFound (msg : String)
deriving DecidableEq

/-- Model of `get_item`: `find_one({'asset_id': asset_id})` scans in natural
order and returns the first match or absence. -/
def get_item (items : List Item) (asset_id : String) : Option Item :=
  items.find? (fun r => r.asset_id == asset_id)

/-- The optional keyword arguments of `add_item`; `none` models an
omitted keyword, so `kwargs.get(k, default)` is `Option.getD`. -/
structure AddFields where
  description : Option String := none
  location : Option String := none
  department : Option String := none
  purchase_price : Option Rat := none
  condition : Option String := none
  model_number : Option String := none
  serial_number : Option String := none
  status : Option String := none
  quantity : Option Int := none
  notes : Option String := none

/-- The document `add_item` builds before inserting: supplied keyword
values, defaults for omissions, and a fresh `last_updated` stamp. -/
def mkItem (asset_id item_name : String) (kw : AddFields) (now : DateTime) : Item :=
  { asset_id := asset_id
    item_name := item_name
    description := kw.description.getD ""
    location := kw.location.getD ""
    department := kw.department.getD ""
    purchase_price := kw.purchase_price.getD 0
    condition := kw.condition.getD "New"
    model_number := kw.model_number.getD ""
    serial_number := kw.serial_number.getD ""
    status := kw.status.getD "Available"
    quantity := kw.quantity.getD 1
    notes := kw.notes.getD ""
    last_updated := get_formatted_time now
    image := none }

/-- Model of `add_item`: `validate_asset_id` first rejects a blank id
(`"Asset ID is required"`), then an already-present id
(`"Asset ID ... already exists"`); then the document is built, the
required `item_name` is checked, and the document is inserted.  The
result carries the Python outcome and the post-state of the
collection (unchanged when an exception is raised, since the sole
write is the final `insert_one`). -/
def add_item (items : List Item) (asset_id item_name : String) (kw : AddFields)
    (now : DateTime) : Except StoreError Unit × List Item :=
  if stripChars asset_id.toList = [] then
    (.error (.validation "Asset ID is required"), items)
  else if (get_item items asset_id).isSome then
    (.error (.conflict ("Asset ID " ++ asset_id ++ " already exists")), items)
  else if stripChars item_name.toList = [] then
    (.error (.validation "Item name is required"), items)
  else
    (.ok (), items ++ [mkItem asset_id item_name kw now])

/-- Apply `f` to the first element satisfying `p`, as MongoDB
`update_one` rewrites the first matching document. -/
def modifyFirst (p : Item → Bool) (f : Item → Item) : List Item → List Item
  | [] => []
  | r :: rs => if p r then f r :: rs else r :: modifyFirst p f rs

/-- Drop the first element satisfying `p`, as MongoDB `delete_one`
removes the first matching document. -/
def removeFirst (p : Item → Bool) : List Item → List Item
  | [] => []
  | r :: rs => if p r then rs else r :: removeFirst p rs

/-- The keyword arguments callers pass to `update_item` (the edit form
supplies a subset of these); `update_item` itself overwrites any
caller-supplied `last_updated`, so the patch cannot carry one. -/
structure UpdateFields where
  item_name : Option String := none
  description : Option String := none
  location : Option String := none
  department : Option String := none
  purchase_price : Option Rat := none
  condition : Option String := none
  model_number : Option String := none
  serial_number : Option String := none
  status : Option String := none
  quantity : Option Int := none
  notes : Option String := none

/-- The `$set` document of `update_item`: the supplied fields replace
the stored ones and `last_updated` is re-stamped by the store. -/
def applyPatch (r : Item) (u : UpdateFields) (now : DateTime) : Item :=
  { r with
    item_name := u.item_name.getD r.item_name
    description := u.description.getD r.description
    location := u.location.getD r.location
    department := u.department.getD r.department
    purchase_price := u.purchase_price.getD r.purchase_price
    condition := u.condition.getD r.condition
    model_number := u.model_number.getD r.model_number
    serial_number := u.serial_number.getD r.serial_number
    status := u.status.getD r.status
    quantity := u.quantity.getD r.quantity
    notes := u.notes.getD r.notes
    last_updated := get_formatted_time now }

/-- Model of `update_item`: raises `"Asset ID ... not found"` when `get_item`
finds nothing; otherwise `update_one` applies the `$set` patch to the
first matching document and the call returns
`modified_count > 0`, i.e. whether the document actually changed. -/
def update_item (items : List Item) (asset_id : String) (u : UpdateFields)
    (now : DateTime) : Except StoreError Bool × List Item :=
  match get_item items asset_id with
  | none => (.error (.notFound ("Asset ID " ++ asset_id ++ " not found")), items)
  | some r =>
    (.ok (decide (applyPatch r u now ≠ r)),
     modifyFirst (fun x => x.asset_id == asset_id) (fun x => applyPatch x u now) items)

/-- Model of `delete_item`: `delete_one` removes the first matching document;
a zero `deleted_count` raises `"Asset ID ... not found"`. -/
def delete_item (items : List Item) (asset_id : String) :
    Except StoreError Unit × List Item :=
  if (get_item items asset_id).isSome then
    (.ok (), removeFirst (fun r => r.asset_id == asset_id) items)
  else
    (.error (.notFound ("Asset ID " ++ asset_id ++ " not found")), items)

/-- The `$or` query `search_items` builds: a blank (stripped) term
matches everything; otherwise the stripped term is interpolated into
`".*term.*"` regexes over seven fields and `"^term.*"` regexes over
`status` and `condition`, all case-insensitive. -/
def matchesItem (term : String) (it : Item) : Bool :=
  let pat := stripChars term.toList
  if pat.isEmpty then true
  else
    containsPat pat it.asset_id.toList
      || containsPat pat it.item_name.toList
      || containsPat pat it.description.toList
      || containsPat pat it.location.toList
      || containsPat pat it.department.toList
      || containsPat pat it.model_number.toList
      || containsPat pat it.serial_number.toList
      || startsPat pat it.status.toList
      || startsPat pat it.condition.toList

/-- Sort relation of `search_items`: it sorts on the `last_updated` field, a formatted
string, in descending order: `a` precedes `b` when `b`'s stamp is
bytewise at most `a`'s. -/
def recencyGE (a b : Item) : Prop :=
  strLe b.last_updated.toList a.last_updated.toList = true

instance : DecidableRel recencyGE :=
  fun _ _ => inferInstanceAs (Decidable (_ = true))

/-- The dictionary `search_items` returns. -/
structure SearchResult where
  items : List Item
  total_items : Nat
  page : Nat
  total_pages : Nat
  per_page : Nat
deriving DecidableEq

/-- Model of `search_items`: filter by the `$or` query, count the matches, sort
by `last_updated` descending, and return the 1-based page of size
`per_page` via `skip((page-1)*per_page).limit(per_page)`, together
with `total_items` and `total_pages = ceil(total/per_page)`. -/
def search_items (items : List Item) (term : String) (page : Nat := 1)
    (per_page : Nat := 20) : SearchResult :=
  let ms := items.filter (matchesItem term)
  let sorted := List.insertionSort recencyGE ms
  { items := (sorted.drop ((page - 1) * per_page)).take per_page
    total_items := ms.length
    page := page
    total_pages := (ms.length + per_page - 1) / per_page
    per_page := per_page }

/-- The dictionary `get_statistics` returns; the groupings are
association lists from field value to document count. -/
structure Stats where
  total_items : Nat
  total_value : Rat
  items_by_department : List (String × Nat)
  items_by_condition : List (String × Nat)

/-- One grouping of `get_statistics`: `distinct` yields each value
once (first-occurrence order), empty values are skipped
(`if dept:` — the empty string is the only falsy string), and each
kept value is paired with `count_documents` on it. -/
def groupCounts (vals : List String) : List (String × Nat) :=
  (vals.dedup.filter (fun v => v != "")).map (fun v => (v, vals.count v))

/-- Model of `get_statistics`: total document count, the sum of every
`purchase_price`, and the department and condition groupings. -/
def get_statistics (items : List Item) : Stats :=
  { total_items := items.length
    total_value := (items.map (fun r => r.purchase_price)).sum
    items_by_department := groupCounts (items.map (fun r => r.department))
    items_by_condition := groupCounts (items.map (fun r => r.condition)) }

/-- A CSV cell: documents are schema-flexible, so a field read back
for export is a string, a number, or — when the document lacks the
field — the empty-string default of `item.get(field, '')`. -/
inductive CsvValue where
  | s (v : String)
  | r (v : Rat)
  | i (v : Int)
deriving DecidableEq

/-- A stored document as the export query sees it (projection
`{'_id': 0, 'image': 0}`): an association list of field name to
value.  A field absent from the list is absent from the document. -/
def Doc : Type := List (String × CsvValue)

/-- Model of `item.get(field, '')`: the field's value, or the empty string when
the document lacks the field. -/
def docGet (d : Doc) (field : String) : CsvValue :=
  match d.find? (fun kv => kv.1 == field) with
  | some kv => kv.2
  | none => .s ""

/-- The projection of an asset record to an export document. -/
def Item.toDoc (r : Item) : Doc :=
  [("asset_id", .s r.asset_id), ("item_name", .s r.item_name),
   ("description", .s r.description), ("location", .s r.location),
   ("department", .s r.department), ("purchase_price", .r r.purchase_price),
   ("condition", .s r.condition), ("model_number", .s r.model_number),
   ("serial_number", .s r.serial_number), ("status", .s r.status),
   ("quantity", .i r.quantity), ("notes", .s r.notes),
   ("last_updated", .s r.last_updated)]

/-- The fixed, explicit column order of `export_to_csv`. -/
def fieldnames : List String :=
  ["asset_id", "item_name", "description", "location", "department",
   "purchase_price", "quantity", "condition", "model_number",
   "serial_number", "status", "notes", "last_updated"]

/-- A PyMongo cursor as `find(...)` returns it: the query result is
still `pending` on the server, the client-side `buffer` of fetched
documents starts empty, and the cursor is not yet `killed` — no
round-trip happens until iteration begins. -/
structure MongoCursor where
  pending : List Doc
  buffer : List Doc := []
  killed : Bool := false

/-- A fresh, unqueried cursor over the query result. -/
def findCursor (docs : List Doc) : MongoCursor := { pending := docs }

/-- PyMongo `Cursor.alive` is `bool(len(self.__data) or (not
self.__killed))`: it consults only the local buffer and the killed
flag, so a freshly created cursor is alive even when the query result
is empty. -/
def MongoCursor.alive (c : MongoCursor) : Bool :=
  !c.buffer.isEmpty || !c.killed

/-- Iterating the cursor yields the buffered then the pending
documents. -/
def MongoCursor.toList (c : MongoCursor) : List Doc :=
  c.buffer ++ c.pending

/-- Model of `os.path.abspath` on a path that needs no normalisation: an
absolute filename is returned as is, a relative one is resolved
against the working directory. -/
def abspath (cwd filename : String) : String :=
  match filename.toList with
  | '/' :: _ => filename
  | _ => cwd ++ "/" ++ filename

/-- The written CSV file and the function's return value. -/
structure CsvOut where
  header : List String
  rows : List (List CsvValue)
  path : String
deriving DecidableEq

/-- Model of `export_to_csv`: open a cursor over all documents (without `_id`
and `image`), raise `"No items to export"` if the cursor is not
alive, else write the fixed header and one row per document — each
row reading the thirteen named fields with `item.get(field, '')` —
and return the absolute path of the file. -/
def export_to_csv (cwd : String) (docs : List Doc)
    (filename : String := "inventory_export.csv") : Except StoreError CsvOut :=
  let c := findCursor docs
  if !c.alive then
    .error (.validation "No items to export")
  else
    .ok { header := fieldnames
          rows := c.toList.map (fun d => fieldnames.map (fun f => docGet d f))
          path := abspath cwd filename }

/-- Model of `add_image`: store the supplied bytes as the `image` field of the
first matching document via `update_one`/`$set`; the call returns
`modified_count > 0`, which is false when no document matches (and
also when the stored image already equals the new bytes).  No
exception is raised for a missing id. -/
def add_image (items : List Item) (asset_id : String) (data : List Nat) :
    Except StoreError Bool × List Item :=
  let modified :=
    match get_item items asset_id with
    | none => false
    | some r => decide (r.image ≠ some data)
  (.ok modified,
   modifyFirst (fun r => r.asset_id == asset_id) (fun r => { r with image := some data }) items)

/-- Model of `remove_image`: `$unset` the `image` field of the first matching
document; `modified_count > 0` is false when no document matches (and
when the document had no image).  No exception is raised for a
missing id. -/
def remove_image (items : List Item) (asset_id : String) :
    Except StoreError Bool × List Item :=
  let modified :=
    match get_item items asset_id with
    | none => false
    | some r => r.image.isSome
  (.ok modified,
   modifyFirst (fun r => r.asset_id == asset_id) (fun r => { r with image := none }) items)

/-- A single physical write against the collection. -/
inductive WriteOp where
  | insert (r : Item)
  | deleteId (asset_id : String)
deriving DecidableEq

/-- Effect of one physical write on the collection. -/
def applyWrite (items : List Item) : WriteOp → List Item
  | .insert r => items ++ [r]
  | .deleteId id => removeFirst (fun r => r.asset_id == id) items

/-- Effect of a write sequence, in order. -/
def applyWrites (items : List Item) (ops : List WriteOp) : List Item :=
  ops.foldl applyWrite items

/-- Modelled from the spec: `update_asset_id(old_id, new_id)` is
called by `EditItemForm.save_changes` but its definition is not under
`src/`; per spec §4.3 it is a no-op success when `old_id == new_id`,
fails with `ConflictError` when `new_id` already exists, fails with
`NotFoundError` when `old_id` does not exist, and otherwise fetches
the full record, rewrites its `asset_id`, inserts it under `new_id`,
then deletes the record at `old_id`.  The result is the ordered
sequence of physical writes the operation performs. -/
def update_asset_id (items : List Item) (old_id new_id : String) :
    Except StoreError (List WriteOp) :=
  if old_id = new_id then
    .ok []
  else if (get_item items new_id).isSome then
    .error (.conflict ("Asset ID " ++ new_id ++ " already exists"))
  else
    match get_item items old_id with
    | none => .error (.notFound ("Asset ID " ++ old_id ++ " not found"))
    | some r => .ok [.insert { r with asset_id := new_id }, .deleteId old_id]

/-- Characters with no special meaning inside a regular expression
(not even the `'.'` wildcard): search terms made of these are matched
literally by `$regex`. -/
def regexPlain (c : Char) : Bool :=
  !(['\\', '^', '$', '.', '|', '?', '*', '+', '(', ')', '[', ']', '\x7b', '\x7d'].contains c)

/-- A string lower-cased character by character, the reference point
for case-insensitive comparison. -/
def lowChars (s : String) : List Char := s.toList.map Char.toLower

/-- The lower-cased stripped search term. -/
def lowPat (term : String) : List Char :=
  (stripChars term.toList).map Char.toLower

/-- The spec's reading of the search query (spec §4.4, claim C7): a
blank term matches all records; otherwise the term must occur as a
case-insensitive substring of one of the seven contains-fields, or be
a case-insensitive prefix of `status` or `condition`.  Stated with
literal substring/prefix containment, to be compared against the
code's regex-based `matchesItem`. -/
def matchesSpec (term : String) (it : Item) : Prop :=
  stripChars term.toList = []
  ∨ lowPat term <:+: lowChars it.asset_id
  ∨ lowPat term <:+: lowChars it.item_name
  ∨ lowPat term <:+: lowChars it.description
  ∨ lowPat term <:+: lowChars it.location
  ∨ lowPat term <:+: lowChars it.department
  ∨ lowPat term <:+: lowChars it.model_number
  ∨ lowPat term <:+: lowChars it.serial_number
  ∨ lowPat term <+: lowChars it.status
  ∨ lowPat term <+: lowChars it.condition

/-- The data-model invariant of claim C9: every stored record has a
non-negative `purchase_price` and a non-negative `quantity`. -/
def priceQtyInv (items : List Item) : Prop :=
  ∀ r ∈ items, 0 ≤ r.purchase_price ∧ 0 ≤ r.quantity

/-- What claim C8 requires of one `get_statistics` grouping over the
multiset `vals` of field values: every listed pair has a non-empty
key counted correctly, every non-empty value occurring in the data is
listed, and the counts sum to the record count minus the number of
blank-valued entries. -/
def groupSpec (vals : List String) (g : List (String × Nat)) : Prop :=
  (∀ p ∈ g, p.1 ≠ "" ∧ p.2 = vals.count p.1)
  ∧ (∀ v ∈ vals, v ≠ "" → v ∈ g.map Prod.fst)
  ∧ ((g.map Prod.snd).sum = vals.length - vals.count "")

/-- A clock reading of January 2, 2024. -/
def dtJan2 : DateTime := ⟨2024, 1, 2, 0, 0, 0⟩

/-- A clock reading of February 1, 2024 — chronologically after
`dtJan2`, but its `"01/02/2024 ..."` stamp is bytewise below
`dtJan2`'s `"02/01/2024 ..."`. -/
def dtFeb1 : DateTime := ⟨2024, 2, 1, 0, 0, 0⟩

/-- Demo record added on January 2. -/
def itA : Item := mkItem "OLD-1" "Projector" {} dtJan2

/-- Demo record added on February 1. -/
def itB : Item := mkItem "NEW-1" "Camera" {} dtFeb1

/-- Demo record with a department and a price. -/
def itC : Item :=
  mkItem "C1" "Desk" { department := some "Facilities", purchase_price := some 250 } dtFeb1

/-- Demo record for the search-matching claims. -/
def it0 : Item := mkItem "A1" "Laptop" {} dtJan2

/-- Keyword arguments carrying a negative price. -/
def badKw : AddFields := { purchase_price := some (-1) }

/-- Keyword arguments for the add-then-get witness. -/
def kwDemo : AddFields := { purchase_price := some 999, quantity := some 2 }

end Inventory

instance {e a : Type} [DecidableEq e] [DecidableEq a] : DecidableEq (Except e a) := fun x y =>
  match x, y with
  | .ok u, .ok v =>
    if h : u = v then isTrue (by rw [h]) else isFalse (by simp [h])
  | .error u, .error v =>
    if h : u = v then isTrue (by rw [h]) else isFalse (by simp [h])
  | .ok _, .error _ => isFalse (by simp)
  | .error _, .ok _ => isFalse (by simp)




instance (items : List Inventory.Item) : Decidable (Inventory.priceQtyInv items) :=
  List.decidableBAll _ items

instance (term : String) (it : Inventory.Item) : Decidable (Inventory.matchesSpec term it) :=
  inferInstanceAs (Decidable (_ ∨ _))

namespace Inventory

/-- Scanning an appended list finds nothing in the first part exactly
when the first part has no match. -/
theorem find?_none_append {α : Type} (p : α → Bool) {l₁ : List α} (l₂ : List α)
    (h : l₁.find? p = none) : (l₁ ++ l₂).find? p = l₂.find? p := by
  induction l₁ with
  | nil => rfl
  | cons a t ih =>
    rw [List.cons_append]
    cases hpa : p a with
    | true => rw [List.find?_cons_of_pos _ hpa] at h; cases h
    | false =>
      rw [List.find?_cons_of_neg _ (by simp [hpa])] at h
      rw [List.find?_cons_of_neg _ (by simp [hpa])]
      exact ih h

/-- An update targeting no stored document leaves the collection
unchanged. -/
theorem modifyFirst_of_none {p : Item → Bool} {f : Item → Item} :
    ∀ {l : List Item}, l.find? p = none → modifyFirst p f l = l := by
  intro l
  induction l with
  | nil => intro _; rfl
  | cons a t ih =>
    intro h
    cases hpa : p a with
    | true => rw [List.find?_cons_of_pos _ hpa] at h; cases h
    | false =>
      rw [List.find?_cons_of_neg _ (by simp [hpa])] at h
      simp [modifyFirst, hpa, ih h]

/-- Every element of an updated collection is an old element or the
image of an old element under the update. -/
theorem mem_modifyFirst {p : Item → Bool} {f : Item → Item} {x : Item} :
    ∀ {l : List Item}, x ∈ modifyFirst p f l → x ∈ l ∨ ∃ y, y ∈ l ∧ x = f y := by
  intro l
  induction l with
  | nil => intro h; exact absurd h (List.not_mem_nil x)
  | cons a t ih =>
    intro h
    by_cases hpa : p a = true
    · simp [modifyFirst, hpa] at h
      rcases h with h | h
      · exact Or.inr ⟨a, List.mem_cons_self a t, h⟩
      · exact Or.inl (List.mem_cons_of_mem a h)
    · simp [modifyFirst, hpa] at h
      rcases h with h | h
      · exact Or.inl (h ▸ List.mem_cons_self a t)
      · rcases ih h with h' | ⟨y, hy, hxy⟩
        · exact Or.inl (List.mem_cons_of_mem a h')
        · exact Or.inr ⟨y, List.mem_cons_of_mem a hy, hxy⟩

/-- Concatenating the first `n` pages of size `pp` of a list yields
its first `n * pp` elements. -/
theorem pagesFlatten {α : Type} (pp : Nat) (n : Nat) (l : List α) :
    ((List.range n).map (fun i => (l.drop (i * pp)).take pp)).flatten = l.take (n * pp) := by
  induction n with
  | zero => simp
  | succ k ih =>
    rw [List.range_succ, List.map_append, List.flatten_append, ih]
    simp only [List.map_cons, List.map_nil, List.flatten_cons, List.flatten_nil,
      List.append_nil]
    rw [Nat.succ_mul, List.take_add]

/-- Ceiling division covers the dividend: `len ≤ ceil(len/pp) * pp`. -/
theorem le_ceil_mul (len pp : Nat) (h : 0 < pp) : len ≤ ((len + pp - 1) / pp) * pp := by
  have h1 := Nat.div_add_mod (len + pp - 1) pp
  have h2 : (len + pp - 1) % pp < pp := Nat.mod_lt _ h
  rw [Nat.mul_comm]
  generalize hm : pp * ((len + pp - 1) / pp) = m at h1 ⊢
  omega

/-- C1.  The identity-rename operation `update_asset_id(old_id, new_id)`
succeeds as a no-op when the two ids are equal; fails with
`ConflictError` when a record with `new_id` already exists; fails with
`NotFoundError` when no record with `old_id` exists; and otherwise
fetches the full record, rewrites its `asset_id` to `new_id`, and
performs exactly the write sequence insert-under-`new_id` followed by
delete-at-`old_id`, the insert strictly before the delete. -/
theorem update_asset_id_spec (items : List Item) (old_id new_id : String) :
    (old_id = new_id → update_asset_id items old_id new_id = .ok [])
    ∧ (old_id ≠ new_id → (get_item items new_id).isSome →
        update_asset_id items old_id new_id
          = .error (.conflict ("Asset ID " ++ new_id ++ " already exists")))
    ∧ (old_id ≠ new_id → get_item items new_id = none → get_item items old_id = none →
        update_asset_id items old_id new_id
          = .error (.notFound ("Asset ID " ++ old_id ++ " not found")))
    ∧ (∀ r : Item, old_id ≠ new_id → get_item items new_id = none →
        get_item items old_id = some r →
        update_asset_id items old_id new_id
          = .ok [.insert { r with asset_id := new_id }, .deleteId old_id]) := by
  refine ⟨?_, ?_, ?_, ?_⟩
  · intro h; simp [update_asset_id, h]
  · intro h hs; simp [update_asset_id, h, hs]
  · intro h hn ho; simp [update_asset_id, h, hn, ho]
  · intro r h hn ho; simp [update_asset_id, h, hn, ho]

/-- C1 witness: renaming the only record of a singleton collection
produces the insert-then-delete write sequence. -/
theorem update_asset_id_spec_witness :
    update_asset_id [itA] "OLD-1" "X9"
      = .ok [.insert { itA with asset_id := "X9" }, .deleteId "OLD-1"] :=
  (update_asset_id_spec [itA] "OLD-1" "X9").2.2.2 itA (by decide) (by decide) (by decide)

/-- C2.  For every collection, search term and positive page size,
concatenating the item lists of pages `1` to `total_pages`, in order,
is a permutation of the set of matching records (no duplicates, no
omissions), and page `total_pages + 1` returns an empty item list
while reporting the same `total_items` and `total_pages`, without
raising an error (`search_items` is total). -/
theorem search_items_pagination (items : List Item) (term : String) (pp : Nat)
    (hpp : 0 < pp) :
    (((List.range (search_items items term 1 pp).total_pages).map
        (fun i => (search_items items term (i + 1) pp).items)).flatten).Perm
      (items.filter (matchesItem term))
    ∧ (search_items items term ((search_items items term 1 pp).total_pages + 1) pp).items = []
    ∧ (search_items items term ((search_items items term 1 pp).total_pages + 1) pp).total_items
        = (search_items items term 1 pp).total_items
    ∧ (search_items items term ((search_items items term 1 pp).total_pages + 1) pp).total_pages
        = (search_items items term 1 pp).total_pages := by
  have hitems : ∀ p, (search_items items term p pp).items
      = ((List.insertionSort recencyGE (items.filter (matchesItem term))).drop
          ((p - 1) * pp)).take pp := fun _ => rfl
  have htp : (search_items items term 1 pp).total_pages
      = ((items.filter (matchesItem term)).length + pp - 1) / pp := rfl
  have hperm := List.perm_insertionSort recencyGE (items.filter (matchesItem term))
  have hlen : (List.insertionSort recencyGE (items.filter (matchesItem term))).length
      = (items.filter (matchesItem term)).length := hperm.length_eq
  have hbound : (items.filter (matchesItem term)).length
      ≤ (search_items items term 1 pp).total_pages * pp := by
    rw [htp]; exact le_ceil_mul _ _ hpp
  refine ⟨?_, ?_, rfl, rfl⟩
  · have hflat : (((List.range (search_items items term 1 pp).total_pages).map
        (fun i => (search_items items term (i + 1) pp).items)).flatten)
        = List.insertionSort recencyGE (items.filter (matchesItem term)) := by
      calc ((List.range (search_items items term 1 pp).total_pages).map
            (fun i => (search_items items term (i + 1) pp).items)).flatten
          = ((List.range (search_items items term 1 pp).total_pages).map
            (fun i => ((List.insertionSort recencyGE (items.filter (matchesItem term))).drop
              (i * pp)).take pp)).flatten := by
            simp only [hitems, Nat.add_sub_cancel]
        _ = (List.insertionSort recencyGE (items.filter (matchesItem term))).take
              ((search_items items term 1 pp).total_pages * pp) := pagesFlatten pp _ _
        _ = List.insertionSort recencyGE (items.filter (matchesItem term)) := by
            apply List.take_of_length_le
            rw [hlen]; exact hbound
    rw [hflat]; exact hperm
  · rw [hitems, Nat.add_sub_cancel]
    have hdrop : (List.insertionSort recencyGE (items.filter (matchesItem term))).drop
        ((search_items items term 1 pp).total_pages * pp) = [] := by
      apply List.drop_eq_nil_of_le
      rw [hlen]; exact hbound
    rw [hdrop, List.take_nil]

/-- C2 witness: pagination with page size 1 over a two-record
collection reassembles the matching set exactly. -/
theorem search_items_pagination_witness : 0 < 1
    ∧ (((List.range (search_items [itA, itB] "cam" 1 1).total_pages).map
        (fun i => (search_items [itA, itB] "cam" (i + 1) 1).items)).flatten).Perm
      ([itA, itB].filter (matchesItem "cam")) :=
  ⟨Nat.one_pos, (search_items_pagination [itA, itB] "cam" 1 Nat.one_pos).1⟩

end Inventory

namespace Inventory

/-- C3 (code bug).  Concrete evaluation at the failing input: `itA` is
stamped January 2, 2024 and `itB` February 1, 2024 — chronologically
later — yet a search over `[itA, itB]` lists `itB` after `itA`,
because the `"%d/%m/%Y ..."` day-first stamps sort bytewise with
`"02/01/2024..." > "01/02/2024..."`.  The chronologically most
recently touched record is not first, contradicting the claim. -/
theorem search_order_not_chronological :
    DateTime.key dtJan2 < DateTime.key dtFeb1
    ∧ itA.last_updated = get_formatted_time dtJan2
    ∧ itB.last_updated = get_formatted_time dtFeb1
    ∧ (search_items [itA, itB] "" 1 20).items = [itA, itB] :=
  ⟨by decide, rfl, rfl, by decide⟩

/-- C4 (code bug).  Concrete evaluation at the failing input: exporting
an empty collection does not fail with a `ValidationError` — a fresh
PyMongo cursor is always `alive` before iteration, so the
`"No items to export"` guard never fires and the function writes a
header-only file and returns its absolute path. -/
theorem export_empty_collection_no_error :
    export_to_csv "/work" []
      = .ok { header := fieldnames, rows := [], path := "/work/inventory_export.csv" } := by
  decide

/-- C5.  Adding a record with a non-blank fresh id and non-blank name
and then fetching by that id returns a record whose supplied fields
equal the supplied values, whose omitted optional fields hold the
documented defaults, and whose `last_updated` is the fresh
store-assigned stamp of the add's clock reading. -/
theorem add_then_get (items : List Item) (id nm : String) (kw : AddFields) (now : DateTime)
    (h1 : stripChars id.toList ≠ [])
    (h2 : get_item items id = none)
    (h3 : stripChars nm.toList ≠ []) :
    (add_item items id nm kw now).1 = .ok ()
    ∧ get_item (add_item items id nm kw now).2 id = some
        { asset_id := id
          item_name := nm
          description := kw.description.getD ""
          location := kw.location.getD ""
          department := kw.department.getD ""
          purchase_price := kw.purchase_price.getD 0
          condition := kw.condition.getD "New"
          model_number := kw.model_number.getD ""
          serial_number := kw.serial_number.getD ""
          status := kw.status.getD "Available"
          quantity := kw.quantity.getD 1
          notes := kw.notes.getD ""
          last_updated := get_formatted_time now
          image := none } := by
  have hs : (get_item items id).isSome = false := by rw [h2]; rfl
  have h1' : stripChars id.data ≠ [] := h1
  have h3' : stripChars nm.data ≠ [] := h3
  constructor
  · simp [add_item, h1', h3', hs]
  · have happ : (add_item items id nm kw now).2 = items ++ [mkItem id nm kw now] := by
      simp [add_item, h1', h3', hs]
    rw [happ, get_item, find?_none_append _ _ h2]
    simp [List.find?, mkItem]

/-- C5 witness: the spec §8 example — adding asset `A1` with a price
and quantity and fetching it back yields the supplied values,
defaults `condition = "New"` and `status = "Available"`, and the
stamp of the add's clock reading. -/
theorem add_then_get_witness :
    (add_item [] "A1" "Laptop" kwDemo dtJan2).1 = .ok ()
    ∧ get_item (add_item [] "A1" "Laptop" kwDemo dtJan2).2 "A1" = some
        { asset_id := "A1"
          item_name := "Laptop"
          description := ""
          location := ""
          department := ""
          purchase_price := 999
          condition := "New"
          model_number := ""
          serial_number := ""
          status := "Available"
          quantity := 2
          notes := ""
          last_updated := "02/01/2024 00:00:00"
          image := none } :=
  add_then_get [] "A1" "Laptop" kwDemo dtJan2 (by decide) rfl (by decide)

/-- C6.  Adding a second record with an already-stored (non-blank)
asset id fails with `ConflictError`, the collection is left exactly as
it was, and in particular the already-stored record is still fetched
unmodified. -/
theorem add_duplicate_conflict (items : List Item) (X nm : String) (r : Item)
    (kw : AddFields) (now : DateTime)
    (hX : stripChars X.toList ≠ [])
    (hr : get_item items X = some r) :
    (add_item items X nm kw now).1
        = .error (.conflict ("Asset ID " ++ X ++ " already exists"))
    ∧ (add_item items X nm kw now).2 = items
    ∧ get_item (add_item items X nm kw now).2 X = some r := by
  have hs : (get_item items X).isSome = true := by rw [hr]; rfl
  have hX' : stripChars X.data ≠ [] := hX
  refine ⟨?_, ?_, ?_⟩ <;> simp [add_item, hX', hs, hr]

/-- C6 witness: re-adding `OLD-1` to the singleton collection holding
`itA` is refused with a conflict and leaves `itA` in place. -/
theorem add_duplicate_conflict_witness :
    (add_item [itA] "OLD-1" "Projector" {} dtFeb1).1
        = .error (.conflict ("Asset ID " ++ "OLD-1" ++ " already exists"))
    ∧ (add_item [itA] "OLD-1" "Projector" {} dtFeb1).2 = [itA]
    ∧ get_item (add_item [itA] "OLD-1" "Projector" {} dtFeb1).2 "OLD-1" = some itA :=
  add_duplicate_conflict [itA] "OLD-1" "Projector" itA {} dtFeb1 (by decide) (by decide)

end Inventory

namespace Inventory

/-- On a plain (metacharacter-free) pattern character, regex matching
is case-insensitive literal comparison. -/
theorem charPat_of_plain {p : Char} (hp : regexPlain p = true) (c : Char) :
    charPat p c = (p.toLower == c.toLower) := by
  have hd : (p == '.') = false := by
    cases hpd : p == '.' with
    | false => rfl
    | true =>
      have hpe : p = '.' := by simpa using hpd
      subst hpe
      simp [regexPlain] at hp
  simp [charPat, hd]

/-- For a metacharacter-free pattern, the anchored regex `"^pat.*"`
matches exactly when the lower-cased pattern starts the lower-cased
string. -/
theorem startsPat_iff {pat : List Char} (hp : pat.all regexPlain = true) :
    ∀ {s : List Char},
      startsPat pat s = true ↔ pat.map Char.toLower <+: s.map Char.toLower := by
  induction pat with
  | nil =>
    intro s
    constructor
    · intro _
      exact ⟨s.map Char.toLower, rfl⟩
    · intro _
      rfl
  | cons p ps ih =>
    intro s
    rw [List.all_cons, Bool.and_eq_true] at hp
    cases s with
    | nil =>
      simp only [startsPat, List.map_cons, List.map_nil]
      constructor
      · intro h; cases h
      · rintro ⟨t, ht⟩; cases ht
    | cons c cs =>
      rw [startsPat, Bool.and_eq_true, charPat_of_plain hp.1, beq_iff_eq,
        ih hp.2, List.map_cons, List.map_cons]
      constructor
      · rintro ⟨h1, t, ht⟩
        exact ⟨t, by rw [List.cons_append, h1, ht]⟩
      · rintro ⟨t, ht⟩
        rw [List.cons_append] at ht
        injection ht with ht1 ht2
        exact ⟨ht1, t, ht2⟩

/-- A sublist occurs inside `a :: m` exactly when it starts `a :: m`
or occurs inside `m`. -/
theorem isInfix_cons_split {l : List Char} {a : Char} {m : List Char} :
    l <:+: (a :: m) ↔ l <+: (a :: m) ∨ l <:+: m := by
  constructor
  · rintro ⟨u, t, h⟩
    cases u with
    | nil => exact Or.inl ⟨t, by simpa using h⟩
    | cons b u' =>
      rw [List.cons_append, List.cons_append] at h
      injection h with h1 h2
      exact Or.inr ⟨u', t, h2⟩
  · rintro (⟨t, ht⟩ | ⟨u, t, ht⟩)
    · exact ⟨[], t, by simpa using ht⟩
    · refine ⟨a :: u, t, ?_⟩
      rw [← ht]
      rfl

/-- For a metacharacter-free pattern, the unanchored regex `".*pat.*"`
matches exactly when the lower-cased pattern occurs inside the
lower-cased string. -/
theorem containsPat_iff {pat : List Char} (hp : pat.all regexPlain = true) :
    ∀ {s : List Char},
      containsPat pat s = true ↔ pat.map Char.toLower <:+: s.map Char.toLower := by
  intro s
  induction s with
  | nil =>
    rw [containsPat, startsPat_iff hp]
    simp only [List.map_nil]
    constructor
    · rintro ⟨t, ht⟩
      exact ⟨[], t, ht⟩
    · rintro ⟨u, t, ht⟩
      rcases List.append_eq_nil.mp ht with ⟨h1, h2⟩
      rcases List.append_eq_nil.mp h1 with ⟨h3, h4⟩
      exact ⟨t, by rw [h4]; simpa using h2⟩
  | cons c cs ih =>
    rw [containsPat, Bool.or_eq_true, startsPat_iff hp, ih, List.map_cons,
      isInfix_cons_split]

/-- C7 counterexample: the claim's iff fails as stated.  The term `"."`
is interpolated unescaped into the `$regex` patterns, where it is the
any-character wildcard: it matches the record `it0` (asset id `"A1"`,
name `"Laptop"`), although `"."` occurs in none of `it0`'s seven
substring fields and starts neither its status nor its condition. -/
theorem search_matching_dot_counterexample :
    matchesItem "." it0 = true ∧ ¬ matchesSpec "." it0 :=
  ⟨by decide, by decide⟩

/-- C7 (amended).  For search terms whose stripped characters contain
no regex metacharacter (in particular no `'.'`), the code's query
agrees with the claim: a blank term matches all records, and otherwise
a record matches exactly when the term occurs as a case-insensitive
substring of `asset_id`, `item_name`, `description`, `location`,
`department`, `model_number` or `serial_number`, or `status` or
`condition` starts with it case-insensitively. -/
theorem search_matching_spec_plain_terms (term : String) (it : Item)
    (h : (stripChars term.toList).all regexPlain = true) :
    matchesItem term it = true ↔ matchesSpec term it := by
  by_cases hb : stripChars term.toList = []
  · have hb' : stripChars term.data = [] := hb
    simp [matchesItem, matchesSpec, hb', hb]
  · have hb' : (stripChars term.data).isEmpty = false := by
      cases hq : stripChars term.data with
      | nil => exact absurd hq hb
      | cons x xs => rfl
    have hbd : ¬ stripChars term.data = [] := hb
    have h' : (stripChars term.data).all regexPlain = true := h
    simp [matchesItem, matchesSpec, lowChars, lowPat, hb', hbd,
      containsPat_iff h', startsPat_iff h']
    tauto

/-- C7 witness: the metacharacter-free term `"lap"` matches `it0`
under both readings. -/
theorem search_matching_spec_plain_terms_witness :
    (stripChars "lap".toList).all regexPlain = true
    ∧ (matchesItem "lap" it0 = true ↔ matchesSpec "lap" it0) :=
  ⟨by decide, search_matching_spec_plain_terms "lap" it0 (by decide)⟩

end Inventory

namespace Inventory

/-- Counting the non-blank entries of a list of strings. -/
theorem countP_ne_eq (vals : List String) :
    vals.countP (fun v => v != "") = vals.length - vals.count "" := by
  have h1 := List.length_eq_countP_add_countP (fun v : String => v == "") (l := vals)
  have h2 : vals.count "" = vals.countP (fun v : String => v == "") :=
    List.count_eq_countP ..
  have h3 : (fun v : String => v != "") = (fun v : String => decide ¬((v == "") = true)) := by
    funext v
    cases hv : v == "" <;> simp [bne, hv]
  have h4 : vals.countP (fun v : String => v != "")
      = vals.countP (fun v : String => decide ¬((v == "") = true)) := by rw [h3]
  omega

/-- The `distinct`-then-count grouping of `get_statistics` satisfies
the grouping part of claim C8 over any multiset of field values. -/
theorem groupCounts_spec (vals : List String) : groupSpec vals (groupCounts vals) := by
  refine ⟨?_, ?_, ?_⟩
  · intro p hp
    simp only [groupCounts, List.mem_map] at hp
    obtain ⟨v, hv, rfl⟩ := hp
    rw [List.mem_filter] at hv
    exact ⟨by simpa using hv.2, rfl⟩
  · intro v hv hne
    simp only [groupCounts, List.map_map]
    have hcomp : (Prod.fst ∘ fun v => (v, vals.count v)) = id := rfl
    rw [hcomp, List.map_id, List.mem_filter]
    exact ⟨List.mem_dedup.mpr hv, by simpa using hne⟩
  · simp only [groupCounts, List.map_map]
    have hcomp : (Prod.snd ∘ fun v => (v, vals.count v)) = fun v => vals.count v := rfl
    rw [hcomp, List.sum_map_count_dedup_filter_eq_countP, countP_ne_eq]

/-- Counting one value among the projections equals the number of
records carrying that value. -/
theorem count_map_eq_filter_length (items : List Item) (f : Item → String) (v : String) :
    (items.map f).count v = (items.filter (fun r => f r == v)).length := by
  rw [List.count_eq_countP, List.countP_map, ← List.countP_eq_length_filter]
  rfl

/-- C8.  On any collection, `get_statistics` returns the total record
count, `total_value` equal to the exact sum of the `purchase_price`
fields, and department/condition groupings in which every listed value
is non-empty and counted correctly (each count being the number of
records carrying that value), every non-empty stored value is listed,
blank values are excluded from the groupings though counted in the
total, and each grouping's counts sum to the record count minus the
number of blank-valued entries for that field. -/
theorem get_statistics_spec (items : List Item) :
    (get_statistics items).total_items = items.length
    ∧ (get_statistics items).total_value = (items.map (fun r => r.purchase_price)).sum
    ∧ groupSpec (items.map (fun r => r.department)) (get_statistics items).items_by_department
    ∧ groupSpec (items.map (fun r => r.condition)) (get_statistics items).items_by_condition
    ∧ (∀ p ∈ (get_statistics items).items_by_department,
        p.2 = (items.filter (fun r => r.department == p.1)).length)
    ∧ (∀ p ∈ (get_statistics items).items_by_condition,
        p.2 = (items.filter (fun r => r.condition == p.1)).length) := by
  have hd : (get_statistics items).items_by_department
      = groupCounts (items.map (fun r => r.department)) := rfl
  have hc : (get_statistics items).items_by_condition
      = groupCounts (items.map (fun r => r.condition)) := rfl
  refine ⟨rfl, rfl, groupCounts_spec _, groupCounts_spec _, ?_, ?_⟩
  · intro p hp
    rw [hd] at hp
    have hcount := ((groupCounts_spec (items.map (fun r => r.department))).1 p hp).2
    rw [hcount, count_map_eq_filter_length]
  · intro p hp
    rw [hc] at hp
    have hcount := ((groupCounts_spec (items.map (fun r => r.condition))).1 p hp).2
    rw [hcount, count_map_eq_filter_length]

/-- C8 witness: on the two-record collection `[itC, itA]` (one
department `"Facilities"`, one blank), the department counts sum to
the record count minus the blank-valued entries. -/
theorem get_statistics_spec_witness :
    ((get_statistics [itC, itA]).items_by_department.map Prod.snd).sum
      = ([itC, itA].map (fun r => r.department)).length
        - ([itC, itA].map (fun r => r.department)).count "" :=
  ((get_statistics_spec [itC, itA]).2.2.1).2.2

/-- C9 counterexample: the claim fails as stated.  `add_item` performs
no non-negativity validation: adding to the empty (invariant-holding)
collection with keyword `purchase_price = -1` succeeds and leaves the
collection violating the non-negativity invariant. -/
theorem nonneg_invariant_counterexample :
    priceQtyInv []
    ∧ (add_item [] "A1" "Widget" badKw dtJan2).1 = .ok ()
    ∧ ¬ priceQtyInv (add_item [] "A1" "Widget" badKw dtJan2).2 := by
  refine ⟨?_, by decide, ?_⟩
  · intro r hr
    exact absurd hr (List.not_mem_nil r)
  · decide

/-- C9 (amended).  The non-negativity invariant on `purchase_price`
and `quantity` is preserved by `add_item` and `update_item` provided
the supplied price and quantity inputs are themselves non-negative
(the defaults `0.0` and `1` qualify); the store itself performs no
non-negativity validation. -/
theorem nonneg_invariant_preserved (items : List Item) (hinv : priceQtyInv items) :
    (∀ (id nm : String) (kw : AddFields) (now : DateTime),
        0 ≤ kw.purchase_price.getD 0 → 0 ≤ kw.quantity.getD 1 →
        priceQtyInv (add_item items id nm kw now).2)
    ∧ (∀ (id : String) (u : UpdateFields) (now : DateTime),
        (∀ p, u.purchase_price = some p → 0 ≤ p) →
        (∀ q, u.quantity = some q → 0 ≤ q) →
        priceQtyInv (update_item items id u now).2) := by
  constructor
  · intro id nm kw now hp hq
    unfold add_item
    by_cases h1 : stripChars id.toList = []
    · rw [if_pos h1]
      exact hinv
    · rw [if_neg h1]
      by_cases h2 : (get_item items id).isSome = true
      · rw [if_pos h2]
        exact hinv
      · rw [if_neg h2]
        by_cases h3 : stripChars nm.toList = []
        · rw [if_pos h3]
          exact hinv
        · rw [if_neg h3]
          intro x hx
          rcases List.mem_append.mp hx with hx' | hx'
          · exact hinv x hx'
          · have hxm : x = mkItem id nm kw now := by simpa using hx'
            subst hxm
            exact ⟨hp, hq⟩
  · intro id u now hp hq
    cases hfind : get_item items id with
    | none =>
      simp only [update_item, hfind]
      exact hinv
    | some r =>
      simp only [update_item, hfind]
      intro x hx
      rcases mem_modifyFirst hx with hx' | ⟨y, hy, rfl⟩
      · exact hinv x hx'
      · have hy' := hinv y hy
        constructor
        · simp only [applyPatch]
          cases hup : u.purchase_price with
          | none => simpa using hy'.1
          | some p => simpa using hp p hup
        · simp only [applyPatch]
          cases huq : u.quantity with
          | none => simpa using hy'.2
          | some q => simpa using hq q huq

/-- C9 witness: an add with all-default optional fields preserves the
invariant on the empty collection. -/
theorem nonneg_invariant_preserved_witness :
    priceQtyInv [] ∧ priceQtyInv (add_item [] "B1" "Thing" {} dtJan2).2 :=
  ⟨fun r hr => absurd hr (List.not_mem_nil r),
   (nonneg_invariant_preserved [] (fun r hr => absurd hr (List.not_mem_nil r))).1
     "B1" "Thing" {} dtJan2 (by decide) (by decide)⟩

/-- C10.  Calling `add_image` or `remove_image` with an asset id for
which no record exists raises no error and returns `False` with the
collection unchanged, whereas `delete_item` and `update_item` on the
same missing id raise a not-found error. -/
theorem missing_id_image_ops (items : List Item) (id : String) (data : List Nat)
    (u : UpdateFields) (now : DateTime)
    (h : get_item items id = none) :
    add_image items id data = (.ok false, items)
    ∧ remove_image items id = (.ok false, items)
    ∧ delete_item items id = (.error (.notFound ("Asset ID " ++ id ++ " not found")), items)
    ∧ update_item items id u now
        = (.error (.notFound ("Asset ID " ++ id ++ " not found")), items) := by
  have hm : modifyFirst (fun r => r.asset_id == id)
      (fun r => { r with image := some data }) items = items :=
    modifyFirst_of_none h
  have hm2 : modifyFirst (fun r => r.asset_id == id)
      (fun r => { r with image := none }) items = items :=
    modifyFirst_of_none h
  have hs : (get_item items id).isSome = false := by rw [h]; rfl
  refine ⟨?_, ?_, ?_, ?_⟩
  · simp [add_image, h, hm]
  · simp [remove_image, h, hm2]
  · simp [delete_item, hs]
  · simp [update_item, h]

/-- C10 witness: on the singleton collection holding `itA`, the image
operations on the missing id `"ZZZ"` return `False` without error and
the delete and update raise not-found. -/
theorem missing_id_image_ops_witness :
    add_image [itA] "ZZZ" [1, 2] = (.ok false, [itA])
    ∧ remove_image [itA] "ZZZ" = (.ok false, [itA])
    ∧ delete_item [itA] "ZZZ"
        = (.error (.notFound ("Asset ID " ++ "ZZZ" ++ " not found")), [itA])
    ∧ update_item [itA] "ZZZ" {} dtFeb1
        = (.error (.notFound ("Asset ID " ++ "ZZZ" ++ " not found")), [itA]) :=
  missing_id_image_ops [itA] "ZZZ" [1, 2] {} dtFeb1 (by decide)

end Inventory
